import Mathlib

/-!
Verification development for the `slot-machine-payments` repository.

We shallowly embed the in-memory ("Phase 1") store of `src/lib/db.ts`
(the branch taken when `isDynamoConfigured()` is false, which is the
default configuration), the slot engine of `src/lib/slot-engine.ts`,
the payment helpers of `src/lib/payment.ts`, and the API route handlers
of `src/app/api/balance/route.ts` (the spin POST) and
`src/app/api/payment-webhook/route.ts`.

Modelling conventions:
 - JS numbers holding credit/cent amounts are modelled as `Int`
   (the spec fixes balances and amounts to be integers).
 - `uuidv4()` is modelled as a fresh-identifier supply: the store keeps
   a counter `nextId` and each generated id consumes it.
 - `Date.now()` is modelled by an explicit `now : Nat` parameter.
 - `throw new Error(msg)` is modelled as `Except String`; since a JS
   exception does not roll back mutations already performed, every
   operation returns the (possibly partially mutated) store next to the
   `Except` result.
 - JS `Map`/`Set`/arrays are modelled as lists in insertion order;
   `Array.prototype.find` scans from the front, `push` appends.
-/

namespace SlotMachine

/-! ### Slot engine (`src/lib/slot-engine.ts`) -/

/-- The seven reel symbols, in the declaration order of `SYMBOLS`. -/
inductive Sym where
  | cherry | lemon | orange | grape | star | diamond | seven
deriving DecidableEq, Repr

instance : Fintype Sym :=
  ⟨⟨{.cherry, .lemon, .orange, .grape, .star, .diamond, .seven}, by decide⟩,
   by intro x; cases x <;> decide⟩

/-- The literal emoji string of each symbol, as in the `SYMBOLS` array. -/
def symStr : Sym → String
  | .cherry => "🍒"
  | .lemon => "🍋"
  | .orange => "🍊"
  | .grape => "🍇"
  | .star => "⭐"
  | .diamond => "💎"
  | .seven => "7️⃣"

/-- `PAYOUT_TABLE`: string key (three joined symbols) to multiplier, in
source order. -/
def PAYOUT_TABLE : List (String × Nat) :=
  [("7️⃣7️⃣7️⃣", 50), ("💎💎💎", 25), ("⭐⭐⭐", 15), ("🍇🍇🍇", 10),
   ("🍊🍊🍊", 8), ("🍋🍋🍋", 5), ("🍒🍒🍒", 3)]

/-- `PARTIAL_PAYOUT` of the source: two-of-a-kind table for the first two
reels, in source order. -/
def PAIR_PAYOUT : List (String × Nat) :=
  [("7️⃣7️⃣", 5), ("💎💎", 3), ("⭐⭐", 2)]

/-- `SYMBOL_WEIGHTS`, in the insertion order that `Object.entries`
iterates. -/
def SYMBOL_WEIGHTS : List (Sym × Nat) :=
  [(.cherry, 30), (.lemon, 25), (.orange, 20), (.grape, 15),
   (.star, 7), (.diamond, 2), (.seven, 1)]

/-- `TOTAL_WEIGHT = Object.values(SYMBOL_WEIGHTS).reduce((a, b) => a + b, 0)`. -/
def TOTAL_WEIGHT : Nat := (SYMBOL_WEIGHTS.map (·.2)).sum

/-- The cumulative-weight walk inside `getRandomSymbol`: starting from
`cumulative`, return the first symbol whose cumulative weight exceeds the
roll; `none` models falling through the loop to the fallback return. -/
def weightWalk : List (Sym × Nat) → Nat → Nat → Option Sym
  | [], _, _ => none
  | (s, w) :: rest, cumulative, roll =>
      if roll < cumulative + w then some s else weightWalk rest (cumulative + w) roll

/-- `getRandomSymbol`, with the external `crypto.randomInt(0, TOTAL_WEIGHT)`
draw passed in as `roll`; the `.getD .cherry` is the source's
`return "🍒"` fallback after the loop. -/
def getRandomSymbol (roll : Nat) : Sym :=
  (weightWalk SYMBOL_WEIGHTS 0 roll).getD .cherry

/-- A triple of reels. -/
abbrev Reels := Sym × Sym × Sym

/-- JS string lookup `TABLE[key]` followed by a truthiness test: absent
keys and a zero value are both falsy, modelled by `.getD 0`. -/
def jsLookup (table : List (String × Nat)) (key : String) : Nat :=
  ((table.find? (fun p => p.1 = key)).map (·.2)).getD 0

/-- `calculateMultiplier` of the source: join the reels into a string key,
try the three-of-a-kind table, then the first-two-reels table, else 0. -/
def calculateMultiplier (reels : Reels) : Nat :=
  let key := symStr reels.1 ++ symStr reels.2.1 ++ symStr reels.2.2
  let full := jsLookup PAYOUT_TABLE key
  if full ≠ 0 then full
  else
    let pairKey := symStr reels.1 ++ symStr reels.2.1
    let pair := jsLookup PAIR_PAYOUT pairKey
    if symStr reels.1 = symStr reels.2.1 ∧ pair ≠ 0 then pair
    else 0

/-- `SpinResult` of the source (timestamp and spinId are opaque here). -/
structure SpinResult where
  reels : Reels
  multiplier : Nat
  winAmount : Int
  isJackpot : Bool
  timestamp : Nat
  spinId : String
deriving DecidableEq, Repr

/-- `executeSpin`, with the three `getRandomSymbol` draws supplied as
`rolls` and the generated spin id as `spinId`. The source also rejects a
non-finite bet; integers are always finite, so only `betAmount <= 0`
remains. -/
def executeSpin (betAmount : Int) (rolls : Nat × Nat × Nat) (now : Nat)
    (spinId : String) : Except String SpinResult :=
  if betAmount ≤ 0 then .error "Invalid bet amount"
  else
    let reels : Reels :=
      (getRandomSymbol rolls.1, getRandomSymbol rolls.2.1, getRandomSymbol rolls.2.2)
    let multiplier := calculateMultiplier reels
    .ok { reels := reels
          multiplier := multiplier
          winAmount := (multiplier : Int) * betAmount
          isJackpot :=
            reels.1 = Sym.seven ∧ reels.2.1 = Sym.seven ∧ reels.2.2 = Sym.seven
          timestamp := now
          spinId := spinId }

/-! ### Payment helpers (`src/lib/payment.ts`) -/

/-- `CREDIT_PACKAGES` as (priceZAR, credits) pairs, in source order. -/
def CREDIT_PACKAGES : List (Int × Int) :=
  [(2000, 500), (3500, 1000), (7500, 2500), (12500, 5000)]

/-- `getCreditsForAmount`: exact package match, else
`Math.floor(amountCents / 4)` (floor division). -/
def getCreditsForAmount (amountCents : Int) : Int :=
  match CREDIT_PACKAGES.find? (fun p => p.1 = amountCents) with
  | some p => p.2
  | none => Int.fdiv amountCents 4

/-- `generatePaymentIdempotencyKey`. -/
def generatePaymentIdempotencyKey (checkoutId paymentId : String) : String :=
  "payment_" ++ checkoutId ++ "_" ++ paymentId

/-! ### In-memory store (`src/lib/db.ts`, `isDynamoConfigured() = false`) -/

/-- `TransactionType`. -/
inductive TransactionType where
  | SPIN_BET | SPIN_WIN | CREDIT_PURCHASE | REFUND
deriving DecidableEq, Repr

/-- `TransactionStatus`. -/
inductive TransactionStatus where
  | COMPLETED | PENDING | FAILED
deriving DecidableEq, Repr

/-- `PaymentRecord.status` values. -/
inductive PaymentStatus where
  | PENDING | COMPLETED | FAILED | REFUNDED
deriving DecidableEq, Repr

/-- String-keyed metadata object, first entry wins on lookup. -/
abbrev Metadata := List (String × String)

/-- Property read `m.k`. -/
def metaGet (m : Metadata) (k : String) : Option String :=
  (m.find? (fun p => p.1 = k)).map (·.2)

/-- Property write `m.k = v` (overwrites any previous value). -/
def metaSet (m : Metadata) (k v : String) : Metadata :=
  (k, v) :: m.filter (fun p => p.1 ≠ k)

/-- `User` of the source. -/
structure User where
  id : String
  balance : Int
  profileName : Option String
  profileEmail : Option String
  createdAt : Nat
  updatedAt : Nat
deriving DecidableEq, Repr

/-- `Transaction` of the source. -/
structure Transaction where
  id : String
  userId : String
  type : TransactionType
  amount : Int
  balanceBefore : Int
  balanceAfter : Int
  status : TransactionStatus
  metadata : Metadata
  createdAt : Nat
deriving DecidableEq, Repr

/-- `PaymentRecord` of the source. -/
structure PaymentRecord where
  id : String
  userId : String
  externalPaymentId : String
  amount : Int
  currency : String
  status : PaymentStatus
  webhookReceived : Bool
  idempotencyKey : String
  createdAt : Nat
  updatedAt : Nat
deriving DecidableEq, Repr

/-- `INITIAL_BALANCE` of `db.ts`. -/
def INITIAL_BALANCE : Int := 1000

/-- The module-level in-memory state of `db.ts` (`users`, `transactions`,
`payments`, `processedIdempotencyKeys`), plus the fresh-id counter that
models `uuidv4()`. -/
structure DB where
  users : List User
  transactions : List Transaction
  payments : List PaymentRecord
  processedIdempotencyKeys : List String
  nextId : Nat
deriving DecidableEq, Repr

/-- The state at module load: every collection empty. -/
def emptyDB : DB := ⟨[], [], [], [], 0⟩

/-- `users.get(userId)`. -/
def findUser (db : DB) (userId : String) : Option User :=
  db.users.find? (fun u => u.id = userId)

/-- In-place mutation of the user object stored in the map. -/
def updateUser (db : DB) (userId : String) (f : User → User) : DB :=
  { db with users := db.users.map (fun u => if u.id = userId then f u else u) }

/-- Draw a fresh id from the uuid supply. -/
def freshId (db : DB) : String × DB :=
  ("tx-" ++ toString db.nextId, { db with nextId := db.nextId + 1 })

/-- `getOrCreateUser` (in-memory branch): return the existing user or
lazily create one with the fixed starting balance. -/
def getOrCreateUser (userId : String) (now : Nat) (db : DB) : User × DB :=
  match findUser db userId with
  | some u => (u, db)
  | none =>
      let u : User :=
        { id := userId
          balance := INITIAL_BALANCE
          profileName := none
          profileEmail := none
          createdAt := now
          updatedAt := now }
      (u, { db with users := db.users ++ [u] })

/-- `debitBalance` (in-memory branch). -/
def debitBalance (userId : String) (amount : Int) (type : TransactionType)
    (metadata : Metadata) (now : Nat) (db : DB) : Except String Transaction × DB :=
  if amount ≤ 0 then (.error "Debit amount must be positive", db)
  else
    match findUser db userId with
    | none => (.error "User not found", db)
    | some user =>
        if user.balance < amount then (.error "Insufficient balance", db)
        else
          let balanceBefore := user.balance
          let db1 := updateUser db userId
            (fun u => { u with balance := u.balance - amount, updatedAt := now })
          let (txId, db2) := freshId db1
          let tx : Transaction :=
            { id := txId
              userId := userId
              type := type
              amount := -amount
              balanceBefore := balanceBefore
              balanceAfter := balanceBefore - amount
              status := .COMPLETED
              metadata := metadata
              createdAt := now }
          (.ok tx, { db2 with transactions := db2.transactions ++ [tx] })

/-- The tail of `creditBalance` after the idempotency pre-step: look up
the user, mutate the balance, append the transaction. -/
def creditApply (userId : String) (amount : Int) (type : TransactionType)
    (metadata : Metadata) (now : Nat) (db : DB) : Except String Transaction × DB :=
  match findUser db userId with
  | none => (.error "User not found", db)
  | some user =>
      let balanceBefore := user.balance
      let db1 := updateUser db userId
        (fun u => { u with balance := u.balance + amount, updatedAt := now })
      let (txId, db2) := freshId db1
      let tx : Transaction :=
        { id := txId
          userId := userId
          type := type
          amount := amount
          balanceBefore := balanceBefore
          balanceAfter := balanceBefore + amount
          status := .COMPLETED
          metadata := metadata
          createdAt := now }
      (.ok tx, { db2 with transactions := db2.transactions ++ [tx] })

/-- `creditBalance` (in-memory branch). When an idempotency key is given:
a key already in the processed set returns the recorded transaction (or
throws if none carries the key); a fresh key is added to the processed set
and stamped into the metadata before the user lookup — so a thrown
"User not found" leaves the key registered. -/
def creditBalance (userId : String) (amount : Int) (type : TransactionType)
    (metadata : Metadata) (idempotencyKey : Option String) (now : Nat)
    (db : DB) : Except String Transaction × DB :=
  if amount ≤ 0 then (.error "Credit amount must be positive", db)
  else
    match idempotencyKey with
    | some key =>
        if key ∈ db.processedIdempotencyKeys then
          match db.transactions.find?
              (fun t => metaGet t.metadata "idempotencyKey" = some key) with
          | some t => (.ok t, db)
          | none => (.error "Idempotency key found but transaction missing", db)
        else
          let db1 :=
            { db with processedIdempotencyKeys := db.processedIdempotencyKeys ++ [key] }
          creditApply userId amount type (metaSet metadata "idempotencyKey" key) now db1
    | none => creditApply userId amount type metadata now db

/-- `isPaymentProcessed` (in-memory branch). -/
def isPaymentProcessed (idempotencyKey : String) (db : DB) : Bool :=
  idempotencyKey ∈ db.processedIdempotencyKeys

/-- `getPaymentByExternalId` (in-memory branch): first inserted record
whose `externalPaymentId` matches. -/
def getPaymentByExternalId (db : DB) (externalPaymentId : String) :
    Option PaymentRecord :=
  db.payments.find? (fun p => p.externalPaymentId = externalPaymentId)

/-- `createPaymentRecord` (in-memory branch). -/
def createPaymentRecord (userId externalPaymentId : String) (amount : Int)
    (currency : String) (status : PaymentStatus) (webhookReceived : Bool)
    (idempotencyKey : String) (now : Nat) (db : DB) : PaymentRecord × DB :=
  let (pid, db1) := freshId db
  let p : PaymentRecord :=
    { id := pid
      userId := userId
      externalPaymentId := externalPaymentId
      amount := amount
      currency := currency
      status := status
      webhookReceived := webhookReceived
      idempotencyKey := idempotencyKey
      createdAt := now
      updatedAt := now }
  (p, { db1 with payments := db1.payments ++ [p] })

/-- `updatePaymentStatus` (in-memory branch). -/
def updatePaymentStatus (paymentId : String) (status : PaymentStatus)
    (webhookReceived : Bool) (now : Nat) (db : DB) :
    Except String PaymentRecord × DB :=
  match db.payments.find? (fun p => p.id = paymentId) with
  | none => (.error "Payment record not found", db)
  | some p =>
      let p' := { p with status := status
                         webhookReceived := webhookReceived
                         updatedAt := now }
      (.ok p',
       { db with payments :=
           db.payments.map (fun q =>
             if q.id = paymentId then
               { q with status := status
                        webhookReceived := webhookReceived
                        updatedAt := now }
             else q) })

/-! ### Spin endpoint (`POST /api/spin`) -/

/-- `BET_OPTIONS` of the slot engine. -/
def BET_OPTIONS : List Int := [1, 5, 10, 25, 50, 100]

/-- The HTTP responses the spin handler can produce. -/
inductive SpinResponse where
  /-- 400: missing userId or an amount outside `BET_OPTIONS`. -/
  | badRequest (msg : String)
  /-- 402: the advisory balance check failed. -/
  | insufficient (balance required : Int)
  /-- 200: spin executed. -/
  | ok (spin : SpinResult) (balance : Int) (betTxId : String)
       (winTxId : Option String)
  /-- 500: the catch-all error handler. -/
  | serverError (msg : String)
deriving DecidableEq, Repr

/-- The spin `POST` handler. The three reel draws and the generated spin
id are external randomness, passed as `rolls` and `spinId`. A request
body that is not valid JSON is outside this model (its 500 response
involves no store interaction). -/
def spinPOST (userId : String) (betAmount : Int) (rolls : Nat × Nat × Nat)
    (spinId : String) (now : Nat) (db : DB) : SpinResponse × DB :=
  if userId = "" then (.badRequest "Missing or invalid userId", db)
  else if betAmount ∉ BET_OPTIONS then (.badRequest "Invalid bet amount", db)
  else
    let (user, db1) := getOrCreateUser userId now db
    if user.balance < betAmount then (.insufficient user.balance betAmount, db1)
    else
      match debitBalance userId betAmount .SPIN_BET [("action", "spin")] now db1 with
      | (.error e, db2) => (.serverError e, db2)
      | (.ok debitTx, db2) =>
          match executeSpin betAmount rolls now spinId with
          | .error e => (.serverError e, db2)
          | .ok result =>
              if 0 < result.winAmount then
                match creditBalance userId result.winAmount .SPIN_WIN
                    [("spinId", result.spinId),
                     ("multiplier", toString result.multiplier)] none now db2 with
                | (.error e, db3) => (.serverError e, db3)
                | (.ok creditTx, db3) =>
                    let (u2, db4) := getOrCreateUser userId now db3
                    (.ok result u2.balance debitTx.id (some creditTx.id), db4)
              else
                let (u2, db3) := getOrCreateUser userId now db2
                (.ok result u2.balance debitTx.id none, db3)

/-! ### Webhook handler (`POST /api/payment-webhook`) -/

/-- The canonical shape produced by `normalizeWebhookPayload`. -/
structure NormalizedPayload where
  eventType : String
  paymentId : Option String
  checkoutId : Option String
  amount : Option Int
  currency : Option String
  status : Option String
  metadata : Metadata
deriving DecidableEq, Repr

/-- JS string falsiness for an optional string: absent or empty. -/
def strFalsy : Option String → Bool
  | none => true
  | some s => s = ""

/-- JS `a || b` on optional strings. -/
def orStr (a b : Option String) : Option String :=
  if strFalsy a then b else a

/-- `verifyWebhookPayload`, stated on the normalized payload (the source
normalizes the raw body and checks the result; `none` models a body the
normalizer rejects). -/
def verifyWebhookPayload (n : Option NormalizedPayload) : Bool :=
  match n with
  | none => false
  | some p =>
      if p.eventType ∉ ["payment.succeeded", "payment.failed", "checkout.completed"]
      then false
      else if strFalsy p.paymentId ∧ strFalsy p.checkoutId then false
      else
        match p.amount with
        | some a => decide (0 < a)
        | none => true

/-- A webhook request body: either text that fails `request.json()`, or a
parsed body presented through its normalization (`none` when
`normalizeWebhookPayload` returns null). -/
inductive WebhookRequest where
  | invalidJson
  | json (n : Option NormalizedPayload)
deriving DecidableEq, Repr

/-- Log record statuses of the webhook route. -/
inductive LogStatus where
  | PROCESSED | REJECTED | DUPLICATE | ERROR
deriving DecidableEq, Repr

/-- The HTTP responses of the webhook handler. -/
inductive WebhookResponse where
  /-- 400: invalid JSON body. -/
  | badRequest
  /-- 200 with `processed`/`duplicate`/`credited` fields. -/
  | ack (processed duplicate : Bool) (credited : Option Int)
  /-- 500: thrown during the crediting step, so the provider retries. -/
  | error500 (msg : String)
deriving DecidableEq, Repr

/-- Whether a response is an HTTP 200 acknowledgment. -/
def isHttp200 : WebhookResponse → Bool
  | .ack _ _ _ => true
  | _ => false

/-- The `payment.failed` branch: update the first matching payment
record, if any, to FAILED. -/
def webhookFailedBranch (checkoutId paymentId : Option String) (now : Nat)
    (db : DB) : WebhookResponse × Option LogStatus × DB :=
  let lookupIds := (([checkoutId, paymentId].filterMap id).filter (fun s => s ≠ ""))
  let record? := lookupIds.firstM (fun i => getPaymentByExternalId db i)
  match record? with
  | some r => (.ack true false none, some .PROCESSED,
               (updatePaymentStatus r.id .FAILED true now db).2)
  | none => (.ack true false none, some .PROCESSED, db)

/-- The webhook `POST` handler of `src/app/api/payment-webhook/route.ts`. -/
def webhookPOST (req : WebhookRequest) (now : Nat) (db : DB) :
    WebhookResponse × Option LogStatus × DB :=
  match req with
  | .invalidJson => (.badRequest, none, db)
  | .json n =>
      if ¬ verifyWebhookPayload n then (.ack false false none, some .REJECTED, db)
      else
        match n with
        | none => (.ack false false none, some .REJECTED, db)
        | some p =>
            let type := p.eventType
            let paymentId := p.paymentId
            let checkoutId := orStr p.checkoutId p.paymentId
            if type = "payment.failed" then
              webhookFailedBranch checkoutId paymentId now db
            else if type = "payment.succeeded" ∨ type = "checkout.completed" then
              if strFalsy checkoutId then (.ack false false none, some .REJECTED, db)
              else
                let c := checkoutId.getD ""
                let record? :=
                  match getPaymentByExternalId db c with
                  | some r => some r
                  | none =>
                      if strFalsy paymentId then none
                      else getPaymentByExternalId db (paymentId.getD "")
                let amountCents : Option Int :=
                  match p.amount with
                  | some a => if 0 < a then some a else record?.map (·.amount)
                  | none => record?.map (·.amount)
                match amountCents with
                | none => (.ack false false none, some .REJECTED, db)
                | some a =>
                    if a ≤ 0 then (.ack false false none, some .REJECTED, db)
                    else
                      let key := generatePaymentIdempotencyKey c
                        ((orStr paymentId (some c)).getD "")
                      if isPaymentProcessed key db then
                        (.ack true true none, some .DUPLICATE, db)
                      else
                        match record? with
                        | some r =>
                            if a ≠ r.amount then
                              (.ack false false none, some .REJECTED, db)
                            else webhookCredit p c paymentId a (some r) now db key
                        | none => webhookCredit p c paymentId a none now db key
            else
              (.ack false false none, some .PROCESSED, db)
where
  /-- Step 3d of the route: resolve the user, then the `try` block around
  `creditBalance`/`updatePaymentStatus`; a thrown error becomes a 500. -/
  webhookCredit (p : NormalizedPayload) (c : String) (paymentId : Option String)
      (a : Int) (record? : Option PaymentRecord) (now : Nat) (db : DB)
      (key : String) : WebhookResponse × Option LogStatus × DB :=
    let credits := getCreditsForAmount a
    let userId? := orStr (record?.map (·.userId)) (metaGet p.metadata "userId")
    if strFalsy userId? then (.ack false false none, some .ERROR, db)
    else
      let uid := userId?.getD ""
      let db1 := (getOrCreateUser uid now db).2
      let meta : Metadata :=
        [("paymentId", (orStr paymentId (some "unknown")).getD "unknown"),
         ("checkoutId", c),
         ("amountCents", toString a),
         ("currency", (orStr p.currency (some "ZAR")).getD "ZAR"),
         ("webhookEventType", p.eventType)]
      match creditBalance uid credits .CREDIT_PURCHASE meta (some key) now db1 with
      | (.error e, db2) => (.error500 e, some .ERROR, db2)
      | (.ok _, db2) =>
          match record? with
          | some r =>
              match updatePaymentStatus r.id .COMPLETED true now db2 with
              | (.error e, db3) => (.error500 e, some .ERROR, db3)
              | (.ok _, db3) =>
                  (.ack true false (some credits), some .PROCESSED, db3)
          | none => (.ack true false (some credits), some .PROCESSED, db2)

/-- Whether a webhook response is the 500 failure shape. -/
def is500 : WebhookResponse → Bool
  | .error500 _ => true
  | _ => false

/-- N sequential deliveries of the same webhook body, collecting the
(response, log status) of each and the final store. -/
def runDeliveries (p : NormalizedPayload) (now : Nat) :
    Nat → DB → List (WebhookResponse × Option LogStatus) × DB
  | 0, db => ([], db)
  | n + 1, db =>
      let r := webhookPOST (.json (some p)) now db
      let rest := runDeliveries p now n r.2.2
      ((r.1, r.2.1) :: rest.1, rest.2)

/-! ### Spec-side definitions for refinement statements -/

/-- From the spec's words: the full three-of-a-kind multiplier table
(every symbol has an entry; exact, order-sensitive combinations in
`PAYOUT_TABLE` are all triples of one symbol). -/
def threeKindTable : Sym → Nat
  | .seven => 50
  | .diamond => 25
  | .star => 15
  | .grape => 10
  | .orange => 8
  | .lemon => 5
  | .cherry => 3

/-- From the spec's words: the smaller multiplier granted when the first
two reels match, regardless of the third; 0 when the pair is not in the
secondary table. -/
def pairTable : Sym → Nat
  | .seven => 5
  | .diamond => 3
  | .star => 2
  | _ => 0

/-- From the spec's words (claim C6): full table on exact three-of-a-kind,
else the pair table when the first two reels are equal, else 0. -/
def claimMultiplier (r : Reels) : Nat :=
  if r.1 = r.2.1 ∧ r.2.1 = r.2.2 then threeKindTable r.1
  else if r.1 = r.2.1 then pairTable r.1
  else 0

/-- Weight assigned to a symbol by `SYMBOL_WEIGHTS`. -/
def weightOf (s : Sym) : Nat :=
  ((SYMBOL_WEIGHTS.find? (fun p => p.1 = s)).map (·.2)).getD 0

/-- The running cumulative weights of a weight list, in order. -/
def cumulativePairs : List (Sym × Nat) → Nat → List (Sym × Nat)
  | [], _ => []
  | (s, w) :: rest, acc => (s, acc + w) :: cumulativePairs rest (acc + w)

/-- From the spec's words (claim C7): the first symbol in the fixed
iteration order whose cumulative weight exceeds the draw. -/
def specSelect (roll : Nat) : Option Sym :=
  ((cumulativePairs SYMBOL_WEIGHTS 0).find? (fun sc => roll < sc.2)).map (·.1)

/-! ### Ledger invariants and reachable store states -/

/-- The transactions recorded for one account. -/
def txnsFor (db : DB) (uid : String) : List Transaction :=
  db.transactions.filter (fun t => t.userId = uid)

/-- Store states reachable from module load by any sequence of the
balance-touching primitives (lazily creating users, debits, credits —
successful or failed, with or without idempotency keys). -/
inductive Reachable : DB → Prop where
  | init : Reachable emptyDB
  | getOrCreate (uid : String) (now : Nat) {db : DB} :
      Reachable db → Reachable (getOrCreateUser uid now db).2
  | debit (uid : String) (amount : Int) (ty : TransactionType) (md : Metadata)
      (now : Nat) {db : DB} :
      Reachable db → Reachable (debitBalance uid amount ty md now db).2
  | credit (uid : String) (amount : Int) (ty : TransactionType) (md : Metadata)
      (key : Option String) (now : Nat) {db : DB} :
      Reachable db → Reachable (creditBalance uid amount ty md key now db).2

/-- The ledger invariant: user ids are unique, every transaction belongs
to an existing user, each balance is the fixed starting balance plus the
sum of that account's transaction amounts, every transaction snapshot is
consistent with a nonzero amount, and balances are non-negative. -/
structure Inv (db : DB) : Prop where
  idNodup : (db.users.map (·.id)).Nodup
  txUser : ∀ t ∈ db.transactions, ∃ u ∈ db.users, u.id = t.userId
  balanceEq : ∀ u ∈ db.users,
    u.balance = INITIAL_BALANCE + ((txnsFor db u.id).map (·.amount)).sum
  txSnap : ∀ t ∈ db.transactions, t.balanceAfter = t.balanceBefore + t.amount
  txNonzero : ∀ t ∈ db.transactions, t.amount ≠ 0
  nonneg : ∀ u ∈ db.users, 0 ≤ u.balance

/-! ### Concrete stores used by witnesses -/

/-- A store holding one lazily created account. -/
def dbA : DB := (getOrCreateUser "alice" 0 emptyDB).2

/-- The account created in `dbA`. -/
def userA : User := (getOrCreateUser "alice" 0 emptyDB).1

/-- A store reached by create, debit 100, credit 50 on one account. -/
def dbC1 : DB :=
  (creditBalance "alice" 50 .SPIN_WIN [] none 2
    (debitBalance "alice" 100 .SPIN_BET [] 1 dbA).2).2

/-- A store where the account's balance was debited down to 5 credits. -/
def dbLow : DB := (debitBalance "alice" 995 .SPIN_BET [] 1 dbA).2

/-- A pending payment attempt: checkout "chk_1", amount 2000 cents. -/
def recP : PaymentRecord :=
  { id := "pay-rec-1"
    userId := "alice"
    externalPaymentId := "chk_1"
    amount := 2000
    currency := "ZAR"
    status := .PENDING
    webhookReceived := false
    idempotencyKey := "init-key"
    createdAt := 0
    updatedAt := 0 }

/-- A store holding only the payment attempt `recP`. -/
def dbP : DB := { emptyDB with payments := [recP] }

/-- A success webhook declaring amount 3500 for checkout "chk_1". -/
def payloadMismatch : NormalizedPayload :=
  { eventType := "payment.succeeded"
    paymentId := some "pay_1"
    checkoutId := some "chk_1"
    amount := some 3500
    currency := some "ZAR"
    status := some "successful"
    metadata := [] }

/-- A success webhook declaring the matching amount 2000. -/
def payloadOk : NormalizedPayload :=
  { payloadMismatch with amount := some 2000 }

/-- Whether a spin response is the 200 success shape. -/
def isOkSpin : SpinResponse → Bool
  | .ok _ _ _ _ => true
  | _ => false

/-! ### Claim C6 — payout resolution -/

/-- C6: for every reel triple the multiplier is the three-of-a-kind table
entry on an exact order-sensitive match, else the pair-table entry when
the first two reels agree (regardless of the third), else 0; the jackpot
triple pays 50; and every spin result has `winAmount = multiplier ×
betAmount` and `isJackpot` exactly on the all-sevens triple. -/
theorem claim_C6_payout_resolution :
    (∀ r : Reels, calculateMultiplier r = claimMultiplier r) ∧
    calculateMultiplier (.seven, .seven, .seven) = 50 ∧
    (∀ (bet : Int) (rolls : Nat × Nat × Nat) (now : Nat) (sid : String)
       (res : SpinResult), executeSpin bet rolls now sid = .ok res →
      res.multiplier = calculateMultiplier res.reels ∧
      res.winAmount = (res.multiplier : Int) * bet ∧
      (res.isJackpot = true ↔ res.reels = (.seven, .seven, .seven))) := by
  refine ⟨?_, ?_, ?_⟩
  · set_option maxHeartbeats 2000000 in
    set_option maxRecDepth 10000 in
    decide
  · decide
  · intro bet rolls now sid res h
    unfold executeSpin at h
    split at h
    · exact absurd h (by simp)
    · simp only [Except.ok.injEq] at h
      subst h
      refine ⟨rfl, rfl, ?_⟩
      constructor
      · intro hj
        have := of_decide_eq_true hj
        obtain ⟨h1, h2, h3⟩ := this
        show (getRandomSymbol rolls.1, getRandomSymbol rolls.2.1,
          getRandomSymbol rolls.2.2) = (Sym.seven, Sym.seven, Sym.seven)
        rw [h1, h2, h3]
      · intro hr
        have h1 : getRandomSymbol rolls.1 = Sym.seven := congrArg (·.1) hr
        have h2 : getRandomSymbol rolls.2.1 = Sym.seven := congrArg (·.2.1) hr
        have h3 : getRandomSymbol rolls.2.2 = Sym.seven := congrArg (·.2.2) hr
        exact decide_eq_true ⟨h1, h2, h3⟩

/-- Witness for C6 at the fixed jackpot draw: roll 99 selects 7️⃣, and a
bet of 10 yields a 500-credit jackpot win. -/
theorem claim_C6_payout_resolution_witness :
    (executeSpin 10 (99, 99, 99) 0 "SPIN-0-0" =
      .ok { reels := (.seven, .seven, .seven), multiplier := 50,
            winAmount := 500, isJackpot := true, timestamp := 0,
            spinId := "SPIN-0-0" }) ∧
    (50 : Nat) = calculateMultiplier (Sym.seven, Sym.seven, Sym.seven) ∧
    (500 : Int) = (50 : Nat) * 10 ∧ (true = true ↔
      ((Sym.seven, Sym.seven, Sym.seven) : Reels) = (.seven, .seven, .seven)) := by
  have h : executeSpin 10 (99, 99, 99) 0 "SPIN-0-0" =
      .ok { reels := (.seven, .seven, .seven), multiplier := 50,
            winAmount := 500, isJackpot := true, timestamp := 0,
            spinId := "SPIN-0-0" } := by rfl
  exact ⟨h, claim_C6_payout_resolution.2.2 10 (99, 99, 99) 0 "SPIN-0-0" _ h⟩

/-! ### Claim C7 — weighted symbol selection -/

/-- C7: for every draw below `TOTAL_WEIGHT` the cumulative walk returns
(without reaching the fallback) the first symbol in the fixed iteration
order whose cumulative weight exceeds the draw, and each symbol is
selected for exactly weight-many draw values. -/
theorem claim_C7_weighted_selection :
    (∀ roll : Nat, roll < TOTAL_WEIGHT →
      weightWalk SYMBOL_WEIGHTS 0 roll = specSelect roll ∧
      (weightWalk SYMBOL_WEIGHTS 0 roll).isSome = true) ∧
    (∀ s : Sym,
      ((List.range TOTAL_WEIGHT).filter
        (fun r => getRandomSymbol r = s)).length = weightOf s) := by
  constructor
  · set_option maxHeartbeats 2000000 in
    set_option maxRecDepth 10000 in
    decide
  · set_option maxHeartbeats 2000000 in
    set_option maxRecDepth 10000 in
    decide

/-- Witness for C7 at draw 42 (selected symbol: 🍋, since 30 ≤ 42 < 55). -/
theorem claim_C7_weighted_selection_witness :
    weightWalk SYMBOL_WEIGHTS 0 42 = specSelect 42 ∧
    (weightWalk SYMBOL_WEIGHTS 0 42).isSome = true :=
  claim_C7_weighted_selection.1 42 (by decide)

/-! ### Claim C8 — idempotency key derivation -/

/-- C8 counterexample: the key derivation is not injective — the distinct
pairs ("a_b", "c") and ("a", "b_c") collide on the key "payment_a_b_c",
refuting the claim as stated. -/
theorem claim_C8_counterexample :
    generatePaymentIdempotencyKey "a_b" "c" =
      generatePaymentIdempotencyKey "a" "b_c" ∧
    ¬ (("a_b", "c") = (("a", "b_c") : String × String)) := by
  constructor
  · decide
  · decide

/-- Splitting at the first separator: if neither leading part contains the
separator, the decomposition is unique. -/
theorem sep_split_unique (sep : Char) :
    ∀ (a c b d : List Char), sep ∉ a → sep ∉ c →
      a ++ sep :: b = c ++ sep :: d → a = c ∧ b = d := by
  intro a
  induction a with
  | nil =>
      intro c b d _ hc h
      cases c with
      | nil => simpa using h
      | cons y c' =>
          simp only [List.nil_append, List.cons_append, List.cons.injEq] at h
          exact absurd (h.1 ▸ List.mem_cons_self y c') (h.1 ▸ hc)
  | cons x a' ih =>
      intro c b d ha hc h
      cases c with
      | nil =>
          simp only [List.cons_append, List.nil_append, List.cons.injEq] at h
          exact absurd (h.1 ▸ List.mem_cons_self x a') (h.1 ▸ ha)
      | cons y c' =>
          simp only [List.cons_append, List.cons.injEq] at h
          obtain ⟨hxy, hrest⟩ := h
          have ha' : sep ∉ a' := fun m => ha (List.mem_cons_of_mem x m)
          have hc' : sep ∉ c' := fun m => hc (List.mem_cons_of_mem y m)
          obtain ⟨h1, h2⟩ := ih c' b d ha' hc' hrest
          exact ⟨by rw [hxy, h1], h2⟩

/-- C8 amended: the key derivation is deterministic, and it is injective
on pairs whose identifiers contain no underscore; pairs containing
underscores may collide (see the counterexample). -/
theorem claim_C8_key_deterministic_injective_on_underscore_free :
    ∀ c₁ p₁ c₂ p₂ : String, '_' ∉ c₁.data → '_' ∉ c₂.data →
      generatePaymentIdempotencyKey c₁ p₁ = generatePaymentIdempotencyKey c₂ p₂ →
      c₁ = c₂ ∧ p₁ = p₂ := by
  intro c₁ p₁ c₂ p₂ h₁ h₂ h
  have hd : ("payment_" ++ c₁ ++ "_" ++ p₁).data =
      ("payment_" ++ c₂ ++ "_" ++ p₂).data := congrArg String.data h
  simp only [String.data_append] at hd
  have hd2 : "payment_".data ++ (c₁.data ++ '_' :: p₁.data) =
      "payment_".data ++ (c₂.data ++ '_' :: p₂.data) := by
    simpa [List.append_assoc] using hd
  have hd' : c₁.data ++ '_' :: p₁.data = c₂.data ++ '_' :: p₂.data :=
    List.append_cancel_left hd2
  obtain ⟨hc, hp⟩ := sep_split_unique '_' c₁.data c₂.data p₁.data p₂.data h₁ h₂ hd'
  exact ⟨String.ext hc, String.ext hp⟩

/-- Witness for the amended C8 at underscore-free identifiers. -/
theorem claim_C8_key_injective_witness :
    ("chk1" : String) = "chk1" ∧ ("pay1" : String) = "pay1" :=
  claim_C8_key_deterministic_injective_on_underscore_free
    "chk1" "pay1" "chk1" "pay1" (by decide) (by decide) rfl

/-! ### Helper lemmas about the user map -/

/-- The balance updates of the store never change a user's id, so mapping
one over the user list leaves the id list unchanged. -/
theorem map_id_of_updateUser (l : List User) (uid : String) (f : User → User)
    (hf : ∀ u, (f u).id = u.id) :
    (l.map (fun u => if u.id = uid then f u else u)).map (·.id) = l.map (·.id) := by
  induction l with
  | nil => rfl
  | cons x l ih =>
      by_cases hx : x.id = uid <;> simp [hx, hf, ih]

/-- With unique ids any member with the looked-up id is the one `find?`
returns. -/
theorem find?_unique_user (l : List User) (uid : String)
    (hnd : (l.map (·.id)).Nodup) (u : User) (hu : u ∈ l) (hid : u.id = uid) :
    l.find? (fun v => v.id = uid) = some u := by
  induction l with
  | nil => cases hu
  | cons x l ih =>
      simp only [List.map_cons, List.nodup_cons] at hnd
      rcases List.mem_cons.mp hu with h | h
      · subst h
        exact List.find?_cons_of_pos _ (by simp [hid])
      · have hx : ¬ x.id = uid := by
          intro hxid
          exact hnd.1 (by
            rw [hxid, ← hid]
            exact List.mem_map.mpr ⟨u, h, rfl⟩)
        rw [List.find?_cons_of_neg _ (by simp [hx])]
        exact ih hnd.2 h

/-- `find?` over the in-place user update. -/
theorem find?_map_update (l : List User) (uid : String) (f : User → User)
    (hf : ∀ u, (f u).id = u.id) :
    (l.map (fun u => if u.id = uid then f u else u)).find? (fun u => u.id = uid)
      = (l.find? (fun u => u.id = uid)).map f := by
  induction l with
  | nil => rfl
  | cons x l ih =>
      by_cases hx : x.id = uid
      · rw [List.map_cons, if_pos hx]
        rw [List.find?_cons_of_pos _ (by simp [hf, hx]),
            List.find?_cons_of_pos _ (by simp [hx])]
        rfl
      · rw [List.map_cons, if_neg hx]
        rw [List.find?_cons_of_neg _ (by simp [hx]),
            List.find?_cons_of_neg _ (by simp [hx])]
        exact ih

/-! ### Invariant preservation -/

/-- The invariant holds at module load. -/
theorem inv_emptyDB : Inv emptyDB := by
  refine ⟨?_, ?_, ?_, ?_, ?_, ?_⟩ <;> simp [emptyDB]

/-- `getOrCreateUser` preserves the ledger invariant. -/
theorem inv_getOrCreateUser (uid : String) (now : Nat) (db : DB) (h : Inv db) :
    Inv (getOrCreateUser uid now db).2 := by
  cases hf : findUser db uid with
  | some u =>
      simp only [getOrCreateUser, hf]
      exact h
  | none =>
      have hnone : ∀ v ∈ db.users, ¬ v.id = uid := by
        intro v hv
        have := List.find?_eq_none.mp hf v hv
        simpa using this
      have hfil : txnsFor db uid = [] := by
        rw [txnsFor, List.filter_eq_nil_iff]
        intro t ht
        obtain ⟨w, hw, hwid⟩ := h.txUser t ht
        simp only [decide_eq_true_eq]
        intro htu
        exact hnone w hw (by rw [hwid, htu])
      simp only [getOrCreateUser, hf]
      refine ⟨?_, ?_, ?_, ?_, ?_, ?_⟩
      · simp only [List.map_append, List.map_cons, List.map_nil]
        rw [List.nodup_append]
        refine ⟨h.idNodup, List.nodup_singleton _, ?_⟩
        intro x hx hx'
        obtain ⟨v, hv, hvid⟩ := List.mem_map.mp hx
        simp only [List.mem_singleton] at hx'
        exact hnone v hv (by rw [hvid, hx'])
      · intro t ht
        obtain ⟨v, hv, hvid⟩ := h.txUser t ht
        exact ⟨v, List.mem_append_left _ hv, hvid⟩
      · intro v hv
        rcases List.mem_append.mp hv with hv | hv
        · exact h.balanceEq v hv
        · simp only [List.mem_singleton] at hv
          subst hv
          simp only [txnsFor] at hfil ⊢
          rw [hfil]
          simp
      · exact h.txSnap
      · exact h.txNonzero
      · intro v hv
        rcases List.mem_append.mp hv with hv | hv
        · exact h.nonneg v hv
        · simp only [List.mem_singleton] at hv
          subst hv
          show (0 : Int) ≤ INITIAL_BALANCE
          decide

/-- The in-place balance update leaves every id unchanged. -/
theorem gid_preserved (uid : String) (f : User → User)
    (hf : ∀ u, (f u).id = u.id) (v : User) :
    ((if v.id = uid then f v else v)).id = v.id := by
  by_cases hvc : v.id = uid <;> simp [hvc, hf]

/-- Core invariant step: mutating one user's balance by `delta` while
appending the matching transaction record preserves the invariant. -/
theorem inv_apply_tx (db : DB) (h : Inv db) (uid : String) (delta : Int)
    (bfun : Int → Int) (hb : ∀ x, bfun x = x + delta) (u : User)
    (hf : db.users.find? (fun w => w.id = uid) = some u) (tx : Transaction)
    (htxu : tx.userId = uid) (htxa : tx.amount = delta)
    (htxsnap : tx.balanceAfter = tx.balanceBefore + tx.amount)
    (hdelta : delta ≠ 0) (hnneg : 0 ≤ u.balance + delta) (now : Nat)
    (nid : Nat) (pays : List PaymentRecord) (keys : List String) :
    Inv { users := db.users.map (fun v => if v.id = uid then
            { v with balance := bfun v.balance, updatedAt := now } else v)
          transactions := db.transactions ++ [tx]
          payments := pays
          processedIdempotencyKeys := keys
          nextId := nid } := by
  have hu_mem : u ∈ db.users := List.mem_of_find?_eq_some hf
  have hu_id : u.id = uid := by
    have := List.find?_some hf
    simpa using this
  set f : User → User :=
    fun v => { v with balance := bfun v.balance, updatedAt := now } with hfdef
  have hfid : ∀ v, (f v).id = v.id := fun v => rfl
  have huniq : ∀ v ∈ db.users, v.id = uid → v = u := by
    intro v hv hvc
    have h1 := find?_unique_user db.users uid h.idNodup v hv hvc
    rw [h1] at hf
    exact Option.some.inj hf
  refine ⟨?_, ?_, ?_, ?_, ?_, ?_⟩
  · rw [map_id_of_updateUser db.users uid f hfid]
    exact h.idNodup
  · intro t ht
    rcases List.mem_append.mp ht with ht | ht
    · obtain ⟨v, hv, hvid⟩ := h.txUser t ht
      exact ⟨_, List.mem_map_of_mem _ hv, by
        rw [gid_preserved uid f hfid v]; exact hvid⟩
    · simp only [List.mem_singleton] at ht
      subst ht
      exact ⟨_, List.mem_map_of_mem _ hu_mem, by
        rw [gid_preserved uid f hfid u, hu_id, htxu]⟩
  · intro v' hv'
    obtain ⟨v, hv, rfl⟩ := List.mem_map.mp hv'
    have hbeq := h.balanceEq v hv
    simp only [txnsFor] at hbeq ⊢
    by_cases hvc : v.id = uid
    · simp only [if_pos hvc]
      show bfun v.balance = INITIAL_BALANCE +
        ((List.filter (fun t => decide (t.userId = v.id))
          (db.transactions ++ [tx])).map (·.amount)).sum
      rw [List.filter_append]
      have hsingle : List.filter (fun t => decide (t.userId = v.id)) [tx] = [tx] := by
        simp [htxu, hvc]
      rw [hsingle, List.map_append, List.sum_append, hb]
      simp only [List.map_cons, List.map_nil, List.sum_cons, List.sum_nil, htxa]
      rw [hbeq]
      ring
    · simp only [if_neg hvc]
      show v.balance = INITIAL_BALANCE +
        ((List.filter (fun t => decide (t.userId = v.id))
          (db.transactions ++ [tx])).map (·.amount)).sum
      rw [List.filter_append]
      have hsingle : List.filter (fun t => decide (t.userId = v.id)) [tx] = [] := by
        simp only [List.filter_eq_nil_iff, List.mem_singleton, decide_eq_true_eq]
        intro t ht
        subst ht
        rw [htxu]
        exact fun hc => hvc hc.symm
      rw [hsingle, List.append_nil]
      exact hbeq
  · intro t ht
    rcases List.mem_append.mp ht with ht | ht
    · exact h.txSnap t ht
    · simp only [List.mem_singleton] at ht
      subst ht
      exact htxsnap
  · intro t ht
    rcases List.mem_append.mp ht with ht | ht
    · exact h.txNonzero t ht
    · simp only [List.mem_singleton] at ht
      subst ht
      rw [htxa]
      exact hdelta
  · intro v' hv'
    obtain ⟨v, hv, rfl⟩ := List.mem_map.mp hv'
    by_cases hvc : v.id = uid
    · have huv := huniq v hv hvc
      subst huv
      simp only [if_pos hvc]
      show (0 : Int) ≤ bfun v.balance
      rw [hb]
      exact hnneg
    · simp only [if_neg hvc]
      exact h.nonneg v hv

/-- `debitBalance` preserves the ledger invariant. -/
theorem inv_debitBalance (uid : String) (amount : Int) (ty : TransactionType)
    (md : Metadata) (now : Nat) (db : DB) (h : Inv db) :
    Inv (debitBalance uid amount ty md now db).2 := by
  by_cases hle : amount ≤ 0
  · simp only [debitBalance, if_pos hle]
    exact h
  · cases hf : findUser db uid with
    | none =>
        simp only [debitBalance, if_neg hle, hf]
        exact h
    | some u =>
        by_cases hbal : u.balance < amount
        · simp only [debitBalance, if_neg hle, hf, if_pos hbal]
          exact h
        · simp only [debitBalance, if_neg hle, hf, if_neg hbal, updateUser, freshId]
          exact inv_apply_tx db h uid (-amount) (fun x => x - amount)
            (fun x => by ring) u hf _ rfl rfl (by show u.balance - amount = _; ring)
            (by omega) (by omega) now _ _ _

/-- `creditApply` (the post-idempotency tail of `creditBalance`)
preserves the ledger invariant. -/
theorem inv_creditApply (uid : String) (amount : Int) (ty : TransactionType)
    (md : Metadata) (now : Nat) (db : DB) (hpos : 0 < amount) (h : Inv db) :
    Inv (creditApply uid amount ty md now db).2 := by
  cases hf : findUser db uid with
  | none =>
      simp only [creditApply, hf]
      exact h
  | some u =>
      simp only [creditApply, hf, updateUser, freshId]
      exact inv_apply_tx db h uid amount (fun x => x + amount)
        (fun x => rfl) u hf _ rfl rfl rfl (by omega)
        (by have := h.nonneg u (List.mem_of_find?_eq_some hf); omega) now _ _ _

/-- `creditBalance` preserves the ledger invariant. -/
theorem inv_creditBalance (uid : String) (amount : Int) (ty : TransactionType)
    (md : Metadata) (key : Option String) (now : Nat) (db : DB) (h : Inv db) :
    Inv (creditBalance uid amount ty md key now db).2 := by
  by_cases hle : amount ≤ 0
  · simp only [creditBalance, if_pos hle]
    exact h
  · cases key with
    | none =>
        simp only [creditBalance, if_neg hle]
        exact inv_creditApply uid amount ty md now db (by omega) h
    | some k =>
        by_cases hk : k ∈ db.processedIdempotencyKeys
        · simp only [creditBalance, if_neg hle, if_pos hk]
          cases hfx : db.transactions.find?
              (fun t => metaGet t.metadata "idempotencyKey" = some k) with
          | some t => simp only [hfx]; exact h
          | none => simp only [hfx]; exact h
        · simp only [creditBalance, if_neg hle, if_neg hk]
          have h1 : Inv { db with processedIdempotencyKeys :=
              db.processedIdempotencyKeys ++ [k] } :=
            ⟨h.idNodup, h.txUser, h.balanceEq, h.txSnap, h.txNonzero, h.nonneg⟩
          exact inv_creditApply uid amount ty _ now _ (by omega) h1

/-- Every reachable store state satisfies the ledger invariant. -/
theorem reachable_inv : ∀ {db : DB}, Reachable db → Inv db := by
  intro db h
  induction h with
  | init => exact inv_emptyDB
  | getOrCreate uid now _ ih => exact inv_getOrCreateUser uid now _ ih
  | debit uid amount ty md now _ ih => exact inv_debitBalance uid amount ty md now _ ih
  | credit uid amount ty md key now _ ih =>
      exact inv_creditBalance uid amount ty md key now _ ih

/-! ### Claim C1 — balance equals initial balance plus ledger sum -/

/-- C1: in every store state reachable by lazy account creation and any
sequence of (successful or failed) debit/credit operations, each
account's balance equals the fixed starting balance plus the sum of the
amounts of that account's recorded transactions, and every recorded
transaction satisfies `balanceAfter = balanceBefore + amount` with a
nonzero amount. -/
theorem claim_C1_balance_equals_ledger_sum :
    ∀ db : DB, Reachable db →
      (∀ u ∈ db.users,
        u.balance = INITIAL_BALANCE + ((txnsFor db u.id).map (·.amount)).sum) ∧
      (∀ t ∈ db.transactions,
        t.balanceAfter = t.balanceBefore + t.amount ∧ t.amount ≠ 0) :=
  fun _ h =>
    ⟨(reachable_inv h).balanceEq,
     fun t ht => ⟨(reachable_inv h).txSnap t ht, (reachable_inv h).txNonzero t ht⟩⟩

/-- Witness for C1 on the concrete create–debit–credit store `dbC1`. -/
theorem claim_C1_balance_equals_ledger_sum_witness :
    (∀ u ∈ dbC1.users,
      u.balance = INITIAL_BALANCE + ((txnsFor dbC1 u.id).map (·.amount)).sum) ∧
    (∀ t ∈ dbC1.transactions,
      t.balanceAfter = t.balanceBefore + t.amount ∧ t.amount ≠ 0) :=
  claim_C1_balance_equals_ledger_sum dbC1
    (.credit "alice" 50 .SPIN_WIN [] none 2
      (.debit "alice" 100 .SPIN_BET [] 1
        (.getOrCreate "alice" 0 .init)))

/-! ### Claim C3 — debit semantics and the no-negative-balance property -/

/-- C3: `debitBalance` rejects non-positive amounts; an account whose
balance is below the requested amount fails with "Insufficient balance"
and the store is returned unchanged; a successful debit appends a
transaction of amount `-amount` and decrements the balance by `amount`;
and in every reachable store state no balance is negative. -/
theorem claim_C3_debit_requires_funds :
    (∀ (uid : String) (amount : Int) (ty : TransactionType) (md : Metadata)
       (now : Nat) (db : DB),
      (amount ≤ 0 →
        debitBalance uid amount ty md now db =
          (.error "Debit amount must be positive", db)) ∧
      (∀ u, 0 < amount → findUser db uid = some u → u.balance < amount →
        debitBalance uid amount ty md now db =
          (.error "Insufficient balance", db)) ∧
      (∀ u, 0 < amount → findUser db uid = some u → amount ≤ u.balance →
        ∃ tx db', debitBalance uid amount ty md now db = (.ok tx, db') ∧
          tx.amount = -amount ∧ tx.type = ty ∧ tx.userId = uid ∧
          db'.transactions = db.transactions ++ [tx] ∧
          (findUser db' uid).map (·.balance) = some (u.balance - amount))) ∧
    (∀ db : DB, Reachable db → ∀ u ∈ db.users, 0 ≤ u.balance) := by
  constructor
  · intro uid amount ty md now db
    refine ⟨?_, ?_, ?_⟩
    · intro hle
      simp only [debitBalance, if_pos hle]
    · intro u hpos hf hlt
      simp only [debitBalance, if_neg (by omega : ¬ amount ≤ 0), hf, if_pos hlt]
    · intro u hpos hf hble
      simp only [debitBalance, if_neg (by omega : ¬ amount ≤ 0), hf,
        if_neg (not_lt.mpr hble), updateUser, freshId]
      refine ⟨_, _, rfl, rfl, rfl, rfl, rfl, ?_⟩
      show ((db.users.map (fun v => if v.id = uid then
        { v with balance := v.balance - amount, updatedAt := now } else v)).find?
          (fun v => v.id = uid)).map (·.balance) = some (u.balance - amount)
      rw [find?_map_update db.users uid
        (fun v => { v with balance := v.balance - amount, updatedAt := now })
        (fun v => rfl)]
      have : db.users.find? (fun v => v.id = uid) = some u := hf
      rw [this]
      rfl
  · intro db h
    exact (reachable_inv h).nonneg

/-- Witness for C3 on the concrete one-account store `dbA` (balance 1000):
a debit of 2000 fails with "Insufficient balance" and leaves the store
unchanged, and the reachable store has no negative balance. -/
theorem claim_C3_debit_requires_funds_witness :
    (debitBalance "alice" 2000 .SPIN_BET [] 1 dbA =
      (.error "Insufficient balance", dbA)) ∧
    (∀ u ∈ dbA.users, 0 ≤ u.balance) :=
  ⟨(claim_C3_debit_requires_funds.1 "alice" 2000 .SPIN_BET [] 1 dbA).2.1
      userA (by decide) rfl (by decide),
   claim_C3_debit_requires_funds.2 dbA (.getOrCreate "alice" 0 .init)⟩

/-! ### Claim C10 — failed credit is not atomic with the key registry -/

/-- C10: calling `creditBalance` with a fresh idempotency key for a
missing account throws "User not found", yet the key is already in the
processed set; afterwards `isPaymentProcessed` reports true and every
retry with that key throws without creating a transaction or touching
any balance. -/
theorem claim_C10_failed_credit_burns_key :
    ∀ (uid : String) (amount : Int) (ty : TransactionType) (md : Metadata)
      (key : String) (now : Nat) (db : DB),
      0 < amount →
      key ∉ db.processedIdempotencyKeys →
      (∀ t ∈ db.transactions, ¬ metaGet t.metadata "idempotencyKey" = some key) →
      findUser db uid = none →
      ∃ db1, creditBalance uid amount ty md (some key) now db =
          (.error "User not found", db1) ∧
        db1.users = db.users ∧
        db1.transactions = db.transactions ∧
        db1.processedIdempotencyKeys = db.processedIdempotencyKeys ++ [key] ∧
        isPaymentProcessed key db1 = true ∧
        (∀ (uid' : String) (amount' : Int) (ty' : TransactionType)
           (md' : Metadata) (now' : Nat),
          (creditBalance uid' amount' ty' md' (some key) now' db1).2 = db1 ∧
          (0 < amount' →
            creditBalance uid' amount' ty' md' (some key) now' db1 =
              (.error "Idempotency key found but transaction missing", db1))) := by
  intro uid amount ty md key now db hpos hkey hnotx hf
  have hfind : ∀ (l : List Transaction), l = db.transactions →
      l.find? (fun t => metaGet t.metadata "idempotencyKey" = some key) = none := by
    intro l hl
    subst hl
    rw [List.find?_eq_none]
    intro t ht
    simpa using hnotx t ht
  refine ⟨{ db with processedIdempotencyKeys :=
      db.processedIdempotencyKeys ++ [key] }, ?_, rfl, rfl, rfl, ?_, ?_⟩
  · simp only [creditBalance, if_neg (by omega : ¬ amount ≤ 0), if_neg hkey,
      creditApply]
    have hf1 : findUser { db with processedIdempotencyKeys :=
        db.processedIdempotencyKeys ++ [key] } uid = none := hf
    rw [hf1]
  · simp only [isPaymentProcessed]
    simp
  · intro uid' amount' ty' md' now'
    have hk1 : key ∈ ({ db with processedIdempotencyKeys :=
        db.processedIdempotencyKeys ++ [key] } : DB).processedIdempotencyKeys := by
      simp
    by_cases hle : amount' ≤ 0
    · constructor
      · simp only [creditBalance, if_pos hle]
      · intro hpos'
        omega
    · have heq : creditBalance uid' amount' ty' md' (some key) now'
          { db with processedIdempotencyKeys :=
            db.processedIdempotencyKeys ++ [key] } =
          (.error "Idempotency key found but transaction missing",
            { db with processedIdempotencyKeys :=
              db.processedIdempotencyKeys ++ [key] }) := by
        simp only [creditBalance, if_neg hle, if_pos hk1, hfind _ rfl]
      exact ⟨by rw [heq], fun _ => heq⟩

/-- Witness for C10: the empty store, account "ghost", amount 5, key
"payment_c1_p1". -/
theorem claim_C10_failed_credit_burns_key_witness :
    ∃ db1, creditBalance "ghost" 5 .CREDIT_PURCHASE [] (some "payment_c1_p1") 0
        emptyDB = (.error "User not found", db1) ∧
      db1.users = emptyDB.users ∧
      db1.transactions = emptyDB.transactions ∧
      db1.processedIdempotencyKeys =
        emptyDB.processedIdempotencyKeys ++ ["payment_c1_p1"] ∧
      isPaymentProcessed "payment_c1_p1" db1 = true ∧
      (∀ (uid' : String) (amount' : Int) (ty' : TransactionType)
         (md' : Metadata) (now' : Nat),
        (creditBalance uid' amount' ty' md' (some "payment_c1_p1") now' db1).2
          = db1 ∧
        (0 < amount' →
          creditBalance uid' amount' ty' md' (some "payment_c1_p1") now' db1 =
            (.error "Idempotency key found but transaction missing", db1))) :=
  claim_C10_failed_credit_burns_key "ghost" 5 .CREDIT_PURCHASE []
    "payment_c1_p1" 0 emptyDB (by decide) (by simp [emptyDB])
    (by simp [emptyDB]) rfl

/-! ### Helper lemmas about `getOrCreateUser` -/

/-- Lazy user creation never records a transaction. -/
theorem getOrCreate_transactions (uid : String) (now : Nat) (db : DB) :
    (getOrCreateUser uid now db).2.transactions = db.transactions := by
  cases hf : findUser db uid <;> simp [getOrCreateUser, hf]

/-- Lazy user creation never touches the payment records. -/
theorem getOrCreate_payments (uid : String) (now : Nat) (db : DB) :
    (getOrCreateUser uid now db).2.payments = db.payments := by
  cases hf : findUser db uid <;> simp [getOrCreateUser, hf]

/-- Lazy user creation never touches the processed-key set. -/
theorem getOrCreate_keys (uid : String) (now : Nat) (db : DB) :
    (getOrCreateUser uid now db).2.processedIdempotencyKeys =
      db.processedIdempotencyKeys := by
  cases hf : findUser db uid <;> simp [getOrCreateUser, hf]

/-- Appending a matching element to a list with no match makes it the
`find?` result. -/
theorem find?_append_last (l : List User) (u : User) (uid : String)
    (hl : l.find? (fun v => v.id = uid) = none) (hu : u.id = uid) :
    (l ++ [u]).find? (fun v => v.id = uid) = some u := by
  induction l with
  | nil =>
      simp only [List.nil_append]
      exact List.find?_cons_of_pos _ (by simpa using hu)
  | cons x l ih =>
      have hx : ¬ x.id = uid := by
        have := List.find?_eq_none.mp hl x (List.mem_cons_self x l)
        simpa using this
      have hl' : l.find? (fun v => v.id = uid) = none := by
        rw [List.find?_eq_none]
        intro y hy
        exact List.find?_eq_none.mp hl y (List.mem_cons_of_mem x hy)
      rw [List.cons_append, List.find?_cons_of_neg _ (by simpa using hx)]
      exact ih hl'

/-- After `getOrCreateUser` the returned user is findable under its id. -/
theorem getOrCreate_findUser (uid : String) (now : Nat) (db : DB) :
    findUser (getOrCreateUser uid now db).2 uid =
      some (getOrCreateUser uid now db).1 := by
  cases hf : findUser db uid with
  | some u =>
      simp only [getOrCreateUser, hf]
  | none =>
      have hf' : List.find? (fun u => decide (u.id = uid)) db.users = none := hf
      simp only [getOrCreateUser, findUser, hf']
      exact find?_append_last db.users
        { id := uid, balance := INITIAL_BALANCE, profileName := none,
          profileEmail := none, createdAt := now, updatedAt := now } uid hf rfl

/-- Every allowed bet amount is positive. -/
theorem bet_options_pos : ∀ b ∈ BET_OPTIONS, (0 : Int) < b := by decide

/-! ### Run lemmas for the funded spin path -/

/-- A funded spin with a winning outcome: the handler debits the bet,
computes the outcome from the draws, credits the win, and reports both
transactions. -/
theorem spinPOST_run_win (userId : String) (bet : Int) (rolls : Nat × Nat × Nat)
    (sid : String) (now : Nat) (db : DB) (user : User) (db1 : DB)
    (hu : ¬ userId = "") (hbopt : bet ∈ BET_OPTIONS)
    (hgu : getOrCreateUser userId now db = (user, db1))
    (hbal : ¬ user.balance < bet)
    (hw : 0 < (calculateMultiplier (getRandomSymbol rolls.1,
      getRandomSymbol rolls.2.1, getRandomSymbol rolls.2.2) : Int) * bet) :
    ∃ (res : SpinResult) (betTx winTx : Transaction) (db' : DB) (bal : Int),
      spinPOST userId bet rolls sid now db =
        (.ok res bal betTx.id (some winTx.id), db') ∧
      res.reels = (getRandomSymbol rolls.1, getRandomSymbol rolls.2.1,
        getRandomSymbol rolls.2.2) ∧
      res.winAmount = (calculateMultiplier res.reels : Int) * bet ∧
      betTx.type = .SPIN_BET ∧ betTx.amount = -bet ∧
      winTx.type = .SPIN_WIN ∧ winTx.amount = res.winAmount ∧
      db'.transactions = db.transactions ++ [betTx, winTx] := by
  have hpos : (0 : Int) < bet := bet_options_pos bet hbopt
  have hble : bet ≤ user.balance := not_lt.mp hbal
  have hfu : findUser db1 userId = some user := by
    have := getOrCreate_findUser userId now db
    rw [hgu] at this
    exact this
  have htr1 : db1.transactions = db.transactions := by
    have := getOrCreate_transactions userId now db
    rw [hgu] at this
    exact this
  have hfu2 : List.find? (fun v => v.id = userId)
      (db1.users.map (fun v => if v.id = userId then
        { v with balance := v.balance - bet, updatedAt := now } else v)) =
      some { user with balance := user.balance - bet, updatedAt := now } := by
    rw [find?_map_update db1.users userId
      (fun v => { v with balance := v.balance - bet, updatedAt := now })
      (fun v => rfl)]
    have hfu' : db1.users.find? (fun v => v.id = userId) = some user := hfu
    rw [hfu']
    rfl
  simp only [spinPOST, if_neg hu, if_neg (not_not_intro hbopt), hgu, if_neg hbal,
    debitBalance, if_neg (show ¬ bet ≤ 0 by omega), hfu, if_neg hbal,
    updateUser, freshId, executeSpin]
  rw [if_pos hw]
  simp only [creditBalance, creditApply, findUser, updateUser, freshId]
  rw [if_neg (show ¬ ((calculateMultiplier (getRandomSymbol rolls.1,
    getRandomSymbol rolls.2.1, getRandomSymbol rolls.2.2) : Int) * bet ≤ 0)
    by omega)]
  rw [hfu2]
  simp only [getOrCreateUser, findUser, updateUser, freshId]
  rw [find?_map_update _ userId
    (fun v => { v with balance := v.balance +
      (calculateMultiplier (getRandomSymbol rolls.1, getRandomSymbol rolls.2.1,
        getRandomSymbol rolls.2.2) : Int) * bet, updatedAt := now })
    (fun v => rfl), hfu2]
  simp only [Option.map_some']
  refine ⟨_,
    { id := "tx-" ++ toString db1.nextId, userId := userId,
      type := .SPIN_BET, amount := -bet, balanceBefore := user.balance,
      balanceAfter := user.balance - bet, status := .COMPLETED,
      metadata := [("action", "spin")], createdAt := now },
    { id := "tx-" ++ toString (db1.nextId + 1), userId := userId,
      type := .SPIN_WIN,
      amount := (calculateMultiplier (getRandomSymbol rolls.1,
        getRandomSymbol rolls.2.1, getRandomSymbol rolls.2.2) : Int) * bet,
      balanceBefore := user.balance - bet,
      balanceAfter := user.balance - bet +
        (calculateMultiplier (getRandomSymbol rolls.1,
          getRandomSymbol rolls.2.1, getRandomSymbol rolls.2.2) : Int) * bet,
      status := .COMPLETED,
      metadata := [("spinId", sid), ("multiplier", toString (calculateMultiplier
        (getRandomSymbol rolls.1, getRandomSymbol rolls.2.1,
          getRandomSymbol rolls.2.2)))],
      createdAt := now },
    _, _, rfl, ?_, ?_, ?_, ?_, ?_, ?_, ?_⟩
  · rfl
  · rfl
  · rfl
  · rfl
  · rfl
  · rfl
  · simp only [htr1, List.append_assoc]
    rfl

/-- A funded spin with a losing outcome: the handler debits the bet,
computes the outcome, and records no other transaction. -/
theorem spinPOST_run_lose (userId : String) (bet : Int) (rolls : Nat × Nat × Nat)
    (sid : String) (now : Nat) (db : DB) (user : User) (db1 : DB)
    (hu : ¬ userId = "") (hbopt : bet ∈ BET_OPTIONS)
    (hgu : getOrCreateUser userId now db = (user, db1))
    (hbal : ¬ user.balance < bet)
    (hw : ¬ 0 < (calculateMultiplier (getRandomSymbol rolls.1,
      getRandomSymbol rolls.2.1, getRandomSymbol rolls.2.2) : Int) * bet) :
    ∃ (res : SpinResult) (betTx : Transaction) (db' : DB) (bal : Int),
      spinPOST userId bet rolls sid now db =
        (.ok res bal betTx.id none, db') ∧
      res.reels = (getRandomSymbol rolls.1, getRandomSymbol rolls.2.1,
        getRandomSymbol rolls.2.2) ∧
      res.winAmount = (calculateMultiplier res.reels : Int) * bet ∧
      betTx.type = .SPIN_BET ∧ betTx.amount = -bet ∧
      db'.transactions = db.transactions ++ [betTx] := by
  have hpos : (0 : Int) < bet := bet_options_pos bet hbopt
  have hble : bet ≤ user.balance := not_lt.mp hbal
  have hfu : findUser db1 userId = some user := by
    have := getOrCreate_findUser userId now db
    rw [hgu] at this
    exact this
  have htr1 : db1.transactions = db.transactions := by
    have := getOrCreate_transactions userId now db
    rw [hgu] at this
    exact this
  have hfu2 : List.find? (fun v => v.id = userId)
      (db1.users.map (fun v => if v.id = userId then
        { v with balance := v.balance - bet, updatedAt := now } else v)) =
      some { user with balance := user.balance - bet, updatedAt := now } := by
    rw [find?_map_update db1.users userId
      (fun v => { v with balance := v.balance - bet, updatedAt := now })
      (fun v => rfl)]
    have hfu' : db1.users.find? (fun v => v.id = userId) = some user := hfu
    rw [hfu']
    rfl
  simp only [spinPOST, if_neg hu, if_neg (not_not_intro hbopt), hgu, if_neg hbal,
    debitBalance, if_neg (show ¬ bet ≤ 0 by omega), hfu, if_neg hbal,
    updateUser, freshId, executeSpin]
  rw [if_neg hw]
  simp only [getOrCreateUser, findUser, updateUser, freshId]
  rw [hfu2]
  refine ⟨_,
    { id := "tx-" ++ toString db1.nextId, userId := userId,
      type := .SPIN_BET, amount := -bet, balanceBefore := user.balance,
      balanceAfter := user.balance - bet, status := .COMPLETED,
      metadata := [("action", "spin")], createdAt := now },
    _, _, rfl, ?_, ?_, ?_, ?_, ?_⟩
  · rfl
  · rfl
  · rfl
  · rfl
  · simp only [htr1]

/-! ### Claim C4 — debit-before-spin ordering -/

/-- C4: when the spin handler does not return the success response (bad
request, insufficient balance, or a failed debit), the transaction log is
unchanged — zero transactions are recorded for that request — and the
result is independent of the reel draws, so no outcome is computed; on
success, a SPIN_BET transaction of `-bet` is recorded, and a SPIN_WIN
credit of `winAmount` is recorded exactly when `winAmount > 0`. -/
theorem claim_C4_debit_before_spin :
    ∀ (userId : String) (bet : Int) (rolls rolls' : Nat × Nat × Nat)
      (sid : String) (now : Nat) (db : DB),
      (isOkSpin (spinPOST userId bet rolls sid now db).1 = false →
        (spinPOST userId bet rolls sid now db).2.transactions = db.transactions ∧
        spinPOST userId bet rolls sid now db =
          spinPOST userId bet rolls' sid now db) ∧
      (∀ res bal btid wtid db',
        spinPOST userId bet rolls sid now db = (.ok res bal btid wtid, db') →
        ∃ betTx : Transaction, betTx.type = .SPIN_BET ∧ betTx.amount = -bet ∧
          btid = betTx.id ∧
          (0 < res.winAmount →
            ∃ winTx : Transaction, winTx.type = .SPIN_WIN ∧
              winTx.amount = res.winAmount ∧
              db'.transactions = db.transactions ++ [betTx, winTx] ∧
              wtid = some winTx.id) ∧
          (res.winAmount ≤ 0 →
            db'.transactions = db.transactions ++ [betTx] ∧ wtid = none)) := by
  intro userId bet rolls rolls' sid now db
  by_cases hu : userId = ""
  · constructor
    · intro _
      simp only [spinPOST, if_pos hu]
      exact ⟨trivial, trivial⟩
    · intro res bal btid wtid db' h
      simp only [spinPOST, if_pos hu, Prod.mk.injEq] at h
      exact absurd h.1 (by intro hc; cases hc)
  · by_cases hbopt : bet ∈ BET_OPTIONS
    · rcases hgu : getOrCreateUser userId now db with ⟨user, db1⟩
      have htr1 : db1.transactions = db.transactions := by
        have := getOrCreate_transactions userId now db
        rw [hgu] at this
        exact this
      by_cases hbal : user.balance < bet
      · constructor
        · intro _
          simp only [spinPOST, if_neg hu, if_neg (not_not_intro hbopt), hgu,
            if_pos hbal]
          exact ⟨htr1, trivial⟩
        · intro res bal btid wtid db' h
          simp only [spinPOST, if_neg hu, if_neg (not_not_intro hbopt), hgu,
            if_pos hbal, Prod.mk.injEq] at h
          exact absurd h.1 (by intro hc; cases hc)
      · constructor
        · intro hok
          exfalso
          by_cases hw : 0 < (calculateMultiplier (getRandomSymbol rolls.1,
              getRandomSymbol rolls.2.1, getRandomSymbol rolls.2.2) : Int) * bet
          · obtain ⟨r, bt, wt, d, b, heq, -⟩ :=
              spinPOST_run_win userId bet rolls sid now db user db1 hu hbopt
                hgu hbal hw
            rw [heq] at hok
            exact absurd hok (by simp [isOkSpin])
          · obtain ⟨r, bt, d, b, heq, -⟩ :=
              spinPOST_run_lose userId bet rolls sid now db user db1 hu hbopt
                hgu hbal hw
            rw [heq] at hok
            exact absurd hok (by simp [isOkSpin])
        · intro res bal btid wtid db' h
          by_cases hw : 0 < (calculateMultiplier (getRandomSymbol rolls.1,
              getRandomSymbol rolls.2.1, getRandomSymbol rolls.2.2) : Int) * bet
          · obtain ⟨r, bt, wt, d, b, heq, hreels, hwin, hbt, hba, hwt, hwa, htr⟩ :=
              spinPOST_run_win userId bet rolls sid now db user db1 hu hbopt
                hgu hbal hw
            rw [heq] at h
            simp only [Prod.mk.injEq, SpinResponse.ok.injEq] at h
            obtain ⟨⟨h1, h2, h3, h4⟩, h5⟩ := h
            subst h1
            subst h2
            subst h4
            subst h5
            refine ⟨bt, hbt, hba, h3.symm, ?_, ?_⟩
            · intro _
              exact ⟨wt, hwt, hwa, htr, rfl⟩
            · intro hle
              rw [hreels] at hwin
              rw [hwin] at hle
              omega
          · obtain ⟨r, bt, d, b, heq, hreels, hwin, hbt, hba, htr⟩ :=
              spinPOST_run_lose userId bet rolls sid now db user db1 hu hbopt
                hgu hbal hw
            rw [heq] at h
            simp only [Prod.mk.injEq, SpinResponse.ok.injEq] at h
            obtain ⟨⟨h1, h2, h3, h4⟩, h5⟩ := h
            subst h1
            subst h2
            subst h4
            subst h5
            refine ⟨bt, hbt, hba, h3.symm, ?_, ?_⟩
            · intro hgt
              exfalso
              rw [hreels] at hwin
              rw [hwin] at hgt
              omega
            · intro _
              exact ⟨htr, rfl⟩
    · constructor
      · intro _
        simp only [spinPOST, if_neg hu, if_pos hbopt]
        exact ⟨trivial, trivial⟩
      · intro res bal btid wtid db' h
        simp only [spinPOST, if_neg hu, if_pos hbopt, Prod.mk.injEq] at h
        exact absurd h.1 (by intro hc; cases hc)

/-- Witness for C4 at the spec's insufficient-balance scenario: the
account holds 5 credits and the bet is 10, so the spin is rejected
(`isOkSpin` is false, discharged by evaluation), zero transactions are
recorded, and the result is the same for a different draw sequence. -/
theorem claim_C4_debit_before_spin_witness :
    (spinPOST "alice" 10 (0, 0, 0) "s" 2 dbLow).2.transactions =
      dbLow.transactions ∧
    spinPOST "alice" 10 (0, 0, 0) "s" 2 dbLow =
      spinPOST "alice" 10 (1, 2, 3) "s" 2 dbLow :=
  (claim_C4_debit_before_spin "alice" 10 (0, 0, 0) (1, 2, 3) "s" 2 dbLow).1
    (by decide)

/-! ### Run lemmas for `creditBalance` and the webhook handler -/

/-- A credit with a fresh idempotency key on an existing account
succeeds, registering the key and appending one transaction. -/
theorem creditBalance_fresh_success (uid : String) (amount : Int)
    (ty : TransactionType) (md : Metadata) (key : String) (now : Nat)
    (db : DB) (u : User) (hpos : 0 < amount)
    (hk : key ∉ db.processedIdempotencyKeys)
    (hf : findUser db uid = some u) :
    ∃ tx db', creditBalance uid amount ty md (some key) now db =
        (.ok tx, db') ∧
      tx.type = ty ∧ tx.amount = amount ∧ tx.userId = uid ∧
      db'.transactions = db.transactions ++ [tx] ∧
      db'.payments = db.payments ∧
      db'.processedIdempotencyKeys = db.processedIdempotencyKeys ++ [key] ∧
      (findUser db' uid).map (·.balance) = some (u.balance + amount) := by
  have hf1 : List.find? (fun v => v.id = uid)
      ({ db with processedIdempotencyKeys :=
        db.processedIdempotencyKeys ++ [key] } : DB).users = some u := hf
  simp only [creditBalance, if_neg (show ¬ amount ≤ 0 by omega), if_neg hk,
    creditApply, updateUser, freshId, findUser, hf1]
  refine ⟨{ id := "tx-" ++ toString db.nextId
            userId := uid
            type := ty
            amount := amount
            balanceBefore := u.balance
            balanceAfter := u.balance + amount
            status := .COMPLETED
            metadata := metaSet md "idempotencyKey" key
            createdAt := now },
    _, rfl, rfl, rfl, rfl, rfl, rfl, rfl, ?_⟩
  show (List.find? (fun v => v.id = uid)
    (db.users.map (fun v => if v.id = uid then
      { v with balance := v.balance + amount, updatedAt := now } else v))).map
        (·.balance) = some (u.balance + amount)
  rw [find?_map_update db.users uid
    (fun v => { v with balance := v.balance + amount, updatedAt := now })
    (fun v => rfl)]
  have hf' : db.users.find? (fun v => v.id = uid) = some u := hf
  rw [hf']
  rfl

/-- Structural verification passes on a well-formed success event. -/
theorem verify_pass (p : NormalizedPayload) (pid : String) (a : Int)
    (hevt : p.eventType = "payment.succeeded" ∨
      p.eventType = "checkout.completed")
    (hpid : p.paymentId = some pid) (hp : ¬ pid = "")
    (hamt : p.amount = some a) (ha : 0 < a) :
    verifyWebhookPayload (some p) = true := by
  rcases hevt with h | h <;>
    simp [verifyWebhookPayload, h, strFalsy, hpid, hp, hamt, ha]

/-- A delivery of a success event whose idempotency key is already in the
processed set is acknowledged as a duplicate and mutates nothing. -/
theorem webhookPOST_duplicate (p : NormalizedPayload) (c pid : String)
    (a : Int) (now : Nat) (db : DB)
    (hevt : p.eventType = "payment.succeeded" ∨
      p.eventType = "checkout.completed")
    (hcid : p.checkoutId = some c) (hc : ¬ c = "")
    (hpid : p.paymentId = some pid) (hp : ¬ pid = "")
    (hamt : p.amount = some a) (ha : 0 < a)
    (hkey : generatePaymentIdempotencyKey c pid ∈
      db.processedIdempotencyKeys) :
    webhookPOST (.json (some p)) now db =
      (.ack true true none, some .DUPLICATE, db) := by
  have hv := verify_pass p pid a hevt hpid hp hamt ha
  have hkey' : isPaymentProcessed (generatePaymentIdempotencyKey c pid) db
      = true := by
    simp only [isPaymentProcessed]
    exact decide_eq_true hkey
  rcases hevt with h | h <;>
    simp [webhookPOST, hv, h, orStr, strFalsy, hcid, hc, hpid, hp, hamt, ha,
      hkey', show ¬ a ≤ 0 by omega]

/-- A success event declaring an amount different from the matching
payment record's amount, with a not-yet-processed key, is rejected with
no mutation at all. -/
theorem webhookPOST_amount_mismatch (p : NormalizedPayload) (c pid : String)
    (a : Int) (r : PaymentRecord) (now : Nat) (db : DB)
    (hevt : p.eventType = "payment.succeeded" ∨
      p.eventType = "checkout.completed")
    (hcid : p.checkoutId = some c) (hc : ¬ c = "")
    (hpid : p.paymentId = some pid) (hp : ¬ pid = "")
    (hamt : p.amount = some a) (ha : 0 < a)
    (hrec : getPaymentByExternalId db c = some r)
    (hmis : ¬ a = r.amount)
    (hkey : generatePaymentIdempotencyKey c pid ∉
      db.processedIdempotencyKeys) :
    webhookPOST (.json (some p)) now db =
      (.ack false false none, some .REJECTED, db) := by
  have hv := verify_pass p pid a hevt hpid hp hamt ha
  have hkey' : isPaymentProcessed (generatePaymentIdempotencyKey c pid) db
      = false := by
    simp only [isPaymentProcessed]
    exact decide_eq_false hkey
  rcases hevt with h | h <;>
    simp [webhookPOST, hv, h, orStr, strFalsy, hcid, hc, hpid, hp, hamt, ha,
      hkey', hrec, hmis, show ¬ a ≤ 0 by omega]

/-- First delivery of a valid success event with a matching payment
record and a fresh key: the handler credits once, appends one
CREDIT_PURCHASE transaction, registers the key, and reports PROCESSED. -/
theorem webhookPOST_first_processed (p : NormalizedPayload) (c pid : String)
    (a : Int) (r : PaymentRecord) (now : Nat) (db : DB)
    (hevt : p.eventType = "payment.succeeded" ∨
      p.eventType = "checkout.completed")
    (hcid : p.checkoutId = some c) (hc : ¬ c = "")
    (hpid : p.paymentId = some pid) (hp : ¬ pid = "")
    (hamt : p.amount = some a) (ha : 0 < a)
    (hrec : getPaymentByExternalId db c = some r)
    (hram : r.amount = a) (hruid : ¬ r.userId = "")
    (hkey : generatePaymentIdempotencyKey c pid ∉
      db.processedIdempotencyKeys)
    (hcred : 0 < getCreditsForAmount a) :
    ∃ tx db3, webhookPOST (.json (some p)) now db =
        (.ack true false (some (getCreditsForAmount a)),
          some .PROCESSED, db3) ∧
      tx.type = .CREDIT_PURCHASE ∧ tx.amount = getCreditsForAmount a ∧
      db3.transactions = db.transactions ++ [tx] ∧
      db3.processedIdempotencyKeys = db.processedIdempotencyKeys ++
        [generatePaymentIdempotencyKey c pid] ∧
      (findUser db3 r.userId).map (·.balance) =
        some ((getOrCreateUser r.userId now db).1.balance +
          getCreditsForAmount a) := by
  have hv := verify_pass p pid a hevt hpid hp hamt ha
  have hne1 : ¬ p.eventType = "payment.failed" := by
    rcases hevt with h | h <;> rw [h] <;> decide
  have hkey' : isPaymentProcessed (generatePaymentIdempotencyKey c pid) db
      = false := by
    simp only [isPaymentProcessed]
    exact decide_eq_false hkey
  have hco : orStr p.checkoutId p.paymentId = some c := by
    simp [orStr, strFalsy, hcid, hc]
  have hsfc : strFalsy (some c) = false := by simp [strFalsy, hc]
  have hpo : orStr p.paymentId (some c) = some pid := by
    simp [orStr, strFalsy, hpid, hp]
  have hpu : orStr p.paymentId (some "unknown") = some pid := by
    simp [orStr, strFalsy, hpid, hp]
  have hsfp : strFalsy p.paymentId = false := by simp [strFalsy, hpid, hp]
  have horuid : orStr (some r.userId)
      (metaGet p.metadata "userId") = some r.userId := by
    simp [orStr, strFalsy, hruid]
  have hsfu : strFalsy (some r.userId) = false := by simp [strFalsy, hruid]
  rcases hgoc : getOrCreateUser r.userId now db with ⟨u, db1⟩
  have hfu : findUser db1 r.userId = some u := by
    have := getOrCreate_findUser r.userId now db
    rw [hgoc] at this
    exact this
  have htr1 : db1.transactions = db.transactions := by
    have := getOrCreate_transactions r.userId now db
    rw [hgoc] at this
    exact this
  have hpay1 : db1.payments = db.payments := by
    have := getOrCreate_payments r.userId now db
    rw [hgoc] at this
    exact this
  have hkeys1 : db1.processedIdempotencyKeys =
      db.processedIdempotencyKeys := by
    have := getOrCreate_keys r.userId now db
    rw [hgoc] at this
    exact this
  have hk1 : generatePaymentIdempotencyKey c pid ∉
      db1.processedIdempotencyKeys := by
    rw [hkeys1]
    exact hkey
  obtain ⟨tx, db2, hcb, htxty, htxam, htxuid, htr2, hpay2, hkeys2, hbal2⟩ :=
    creditBalance_fresh_success r.userId (getCreditsForAmount a)
      .CREDIT_PURCHASE
      [("paymentId", pid), ("checkoutId", c), ("amountCents", toString a),
       ("currency", (orStr p.currency (some "ZAR")).getD "ZAR"),
       ("webhookEventType", p.eventType)]
      (generatePaymentIdempotencyKey c pid) now db1 u hcred hk1 hfu
  have hrmem : r ∈ db.payments := List.mem_of_find?_eq_some hrec
  have hfind : ∃ q, db2.payments.find? (fun w => w.id = r.id) = some q := by
    rw [hpay2, hpay1]
    have hs : (db.payments.find? (fun w => w.id = r.id)).isSome :=
      List.find?_isSome.mpr ⟨r, hrmem, by simp⟩
    exact Option.isSome_iff_exists.mp hs
  obtain ⟨q, hq⟩ := hfind
  refine ⟨tx,
    { db2 with payments := db2.payments.map (fun w =>
        if w.id = r.id then
          { w with status := .COMPLETED
                   webhookReceived := true
                   updatedAt := now }
        else w) }, ?_, htxty, htxam, ?_, ?_, ?_⟩
  · simp [webhookPOST, webhookPOST.webhookCredit, hv, hne1, hevt, hco, hsfc,
      Option.getD_some, hamt,
      ha, show ¬ a ≤ 0 by omega, hkey', hrec,
      if_neg (show ¬ a ≠ r.amount from not_not_intro hram.symm), hpo, hpu,
      hsfp, horuid, hsfu, hgoc, hcb, updatePaymentStatus, hq]
  · show db2.transactions = db.transactions ++ [tx]
    rw [htr2, htr1]
  · show db2.processedIdempotencyKeys = db.processedIdempotencyKeys ++
      [generatePaymentIdempotencyKey c pid]
    rw [hkeys2, hkeys1]
  · show (findUser db2 r.userId).map (·.balance) = some
      ((u, db1).1.balance + getCreditsForAmount a)
    exact hbal2

/-! ### Claim C5 — amount-mismatch rejection -/

/-- C5: a success webhook whose declared amount differs from the amount
recorded in the matching PaymentAttempt (and whose key has not already
been processed) is rejected: the handler logs REJECTED, answers without
crediting, and returns the store completely unchanged — no credit, no
transaction, payment status untouched. -/
theorem claim_C5_amount_mismatch_rejected :
    ∀ (p : NormalizedPayload) (c pid : String) (a : Int) (r : PaymentRecord)
      (now : Nat) (db : DB),
      (p.eventType = "payment.succeeded" ∨
        p.eventType = "checkout.completed") →
      p.checkoutId = some c → ¬ c = "" →
      p.paymentId = some pid → ¬ pid = "" →
      p.amount = some a → 0 < a →
      getPaymentByExternalId db c = some r →
      ¬ a = r.amount →
      generatePaymentIdempotencyKey c pid ∉ db.processedIdempotencyKeys →
      webhookPOST (.json (some p)) now db =
        (.ack false false none, some .REJECTED, db) :=
  fun p c pid a r now db hevt hcid hc hpid hp hamt ha hrec hmis hkey =>
    webhookPOST_amount_mismatch p c pid a r now db hevt hcid hc hpid hp
      hamt ha hrec hmis hkey

/-- Witness for C5: attempt recorded at 2000, webhook declares 3500 for
the same checkout id — rejected with the store unchanged. -/
theorem claim_C5_amount_mismatch_rejected_witness :
    webhookPOST (.json (some payloadMismatch)) 0 dbP =
      (.ack false false none, some .REJECTED, dbP) :=
  claim_C5_amount_mismatch_rejected payloadMismatch "chk_1" "pay_1" 3500
    recP 0 dbP (Or.inl rfl) rfl (by decide) rfl (by decide) rfl (by decide)
    (by decide) (by decide) (by decide)

/-! ### Claim C2 — exactly-once crediting across N deliveries -/

/-- C2: for N ≥ 1 deliveries of the same valid success event (matching
payment record, fresh key, positive credit amount), exactly one
CREDIT_PURCHASE transaction is created and the balance is credited
exactly once; the first delivery reports PROCESSED and the remaining
N−1 report success marked DUPLICATE with no store mutation. -/
theorem claim_C2_exactly_once_crediting :
    ∀ (p : NormalizedPayload) (c pid : String) (a : Int) (r : PaymentRecord)
      (now : Nat) (db : DB),
      (p.eventType = "payment.succeeded" ∨
        p.eventType = "checkout.completed") →
      p.checkoutId = some c → ¬ c = "" →
      p.paymentId = some pid → ¬ pid = "" →
      p.amount = some a → 0 < a →
      getPaymentByExternalId db c = some r →
      r.amount = a → ¬ r.userId = "" →
      generatePaymentIdempotencyKey c pid ∉ db.processedIdempotencyKeys →
      0 < getCreditsForAmount a →
      ∀ N : Nat, 0 < N →
      ∃ tx dbf,
        runDeliveries p now N db =
          ((.ack true false (some (getCreditsForAmount a)),
              some .PROCESSED) ::
            List.replicate (N - 1) (.ack true true none, some .DUPLICATE),
            dbf) ∧
        tx.type = .CREDIT_PURCHASE ∧ tx.amount = getCreditsForAmount a ∧
        dbf.transactions = db.transactions ++ [tx] ∧
        (findUser dbf r.userId).map (·.balance) =
          some ((getOrCreateUser r.userId now db).1.balance +
            getCreditsForAmount a) := by
  intro p c pid a r now db hevt hcid hc hpid hp hamt ha hrec hram hruid
    hkey hcred N hN
  have haux : ∀ (k : Nat) (dbx : DB),
      generatePaymentIdempotencyKey c pid ∈ dbx.processedIdempotencyKeys →
      runDeliveries p now k dbx =
        (List.replicate k (.ack true true none, some .DUPLICATE), dbx) := by
    intro k
    induction k with
    | zero => intro dbx _; rfl
    | succ n ih =>
        intro dbx hk
        have hdup := webhookPOST_duplicate p c pid a now dbx hevt hcid hc
          hpid hp hamt ha hk
        simp only [runDeliveries, hdup]
        rw [ih dbx hk]
        rfl
  obtain ⟨tx, db3, hmain, htxty, htxam, htr3, hkeys3, hbal3⟩ :=
    webhookPOST_first_processed p c pid a r now db hevt hcid hc hpid hp
      hamt ha hrec hram hruid hkey hcred
  have hk3 : generatePaymentIdempotencyKey c pid ∈
      db3.processedIdempotencyKeys := by
    rw [hkeys3]
    simp
  cases N with
  | zero => omega
  | succ n =>
      refine ⟨tx, db3, ?_, htxty, htxam, htr3, hbal3⟩
      simp only [runDeliveries, hmain]
      rw [haux n db3 hk3]
      simp

/-- Witness for C2: two deliveries of the matching 2000-cent success
event on the store holding `recP` — one PROCESSED crediting 500, one
DUPLICATE, one transaction. -/
theorem claim_C2_exactly_once_crediting_witness :
    ∃ tx dbf,
      runDeliveries payloadOk 0 2 dbP =
        ((.ack true false (some (getCreditsForAmount 2000)),
            some .PROCESSED) ::
          List.replicate 1 (.ack true true none, some .DUPLICATE), dbf) ∧
      tx.type = .CREDIT_PURCHASE ∧ tx.amount = getCreditsForAmount 2000 ∧
      dbf.transactions = dbP.transactions ++ [tx] ∧
      (findUser dbf recP.userId).map (·.balance) =
        some ((getOrCreateUser recP.userId 0 dbP).1.balance +
          getCreditsForAmount 2000) :=
  claim_C2_exactly_once_crediting payloadOk "chk_1" "pay_1" 2000 recP 0 dbP
    (Or.inl rfl) rfl (by decide) rfl (by decide) rfl (by decide) (by decide)
    rfl (by decide) (by decide) (by decide) 2 (by decide)

/-! ### Claim C9 — webhook response statuses -/

/-- C9 counterexample: a request whose body is not valid JSON is a
malformed inbound webhook request, yet the handler answers neither with
a success acknowledgment (200) nor with the crediting-failure status
(500) — it returns 400, refuting the claim as stated. -/
theorem claim_C9_counterexample :
    isHttp200 (webhookPOST .invalidJson 0 emptyDB).1 = false ∧
    is500 (webhookPOST .invalidJson 0 emptyDB).1 = false ∧
    (webhookPOST .invalidJson 0 emptyDB).1 = .badRequest :=
  ⟨rfl, rfl, rfl⟩

/-- The only errors `creditBalance` can throw. -/
theorem creditBalance_error_cases (uid : String) (amount : Int)
    (ty : TransactionType) (md : Metadata) (key : Option String) (now : Nat)
    (db : DB) (e : String)
    (h : (creditBalance uid amount ty md key now db).1 = .error e) :
    e = "Credit amount must be positive" ∨
    e = "Idempotency key found but transaction missing" ∨
    e = "User not found" := by
  simp only [creditBalance, creditApply] at h
  repeat' split at h
  all_goals simp_all

/-- The only error `updatePaymentStatus` can throw. -/
theorem updatePaymentStatus_error_case (paymentId : String)
    (st : PaymentStatus) (wr : Bool) (now : Nat) (db : DB) (e : String)
    (h : (updatePaymentStatus paymentId st wr now db).1 = .error e) :
    e = "Payment record not found" := by
  simp only [updatePaymentStatus] at h
  split at h
  all_goals simp_all

/-- The crediting step never answers 400, and its 500 answers carry only
the messages thrown inside the `try` block. -/
theorem webhookCredit_response_cases (p : NormalizedPayload) (c : String)
    (paymentId : Option String) (a : Int) (rec? : Option PaymentRecord)
    (now : Nat) (db : DB) (key : String) :
    (webhookPOST.webhookCredit p c paymentId a rec? now db key).1 ≠
      .badRequest ∧
    (∀ e, (webhookPOST.webhookCredit p c paymentId a rec? now db key).1 =
        .error500 e →
      e = "Credit amount must be positive" ∨
      e = "Idempotency key found but transaction missing" ∨
      e = "User not found" ∨
      e = "Payment record not found") := by
  constructor
  · intro h
    simp only [webhookPOST.webhookCredit] at h
    repeat' split at h
    all_goals simp_all
  · intro e he
    simp only [webhookPOST.webhookCredit] at he
    split at he
    · exact absurd he (by simp)
    · split at he
      case h_1 tx db2 heq =>
        simp only [WebhookResponse.error500.injEq] at he
        subst he
        have h1 : (creditBalance ((orStr (rec?.map (·.userId))
            (metaGet p.metadata "userId")).getD "") (getCreditsForAmount a)
            .CREDIT_PURCHASE
            [("paymentId", (orStr paymentId (some "unknown")).getD "unknown"),
             ("checkoutId", c), ("amountCents", toString a),
             ("currency", (orStr p.currency (some "ZAR")).getD "ZAR"),
             ("webhookEventType", p.eventType)] (some key) now
            (getOrCreateUser ((orStr (rec?.map (·.userId))
              (metaGet p.metadata "userId")).getD "") now db).2).1 =
            .error tx := by rw [heq]
        rcases creditBalance_error_cases _ _ _ _ _ _ _ _ h1 with h | h | h
        · exact Or.inl h
        · exact Or.inr (Or.inl h)
        · exact Or.inr (Or.inr (Or.inl h))
      case h_2 tx db2 heq =>
        split at he
        · split at he
          case h_1 e2 db3 heq2 =>
            simp only [WebhookResponse.error500.injEq] at he
            subst he
            have h2 := congrArg Prod.fst heq2
            exact Or.inr (Or.inr (Or.inr
              (updatePaymentStatus_error_case _ _ _ _ _ _ h2)))
          case h_2 q db3 heq2 => exact absurd he (by simp)
        · exact absurd he (by simp)

/-- The payment-failed branch always acknowledges with 200. -/
theorem webhookFailedBranch_response (checkoutId paymentId : Option String)
    (now : Nat) (db : DB) :
    (webhookFailedBranch checkoutId paymentId now db).1 =
      .ack true false none := by
  simp only [webhookFailedBranch]
  split <;> rfl

/-- C9 amended: every inbound webhook request whose body parses as JSON
is answered with a success acknowledgment (200), except that a throw
inside the crediting step yields a failure status (500) so the provider
retries; a request whose body is not valid JSON is answered 400, the one
case the original claim missed. -/
theorem claim_C9_ack_except_credit_failures :
    ∀ (req : WebhookRequest) (now : Nat) (db : DB),
      ((webhookPOST req now db).1 = .badRequest ↔ req = .invalidJson) ∧
      (∀ e, (webhookPOST req now db).1 = .error500 e →
        e = "Credit amount must be positive" ∨
        e = "Idempotency key found but transaction missing" ∨
        e = "User not found" ∨
        e = "Payment record not found") := by
  intro req now db
  cases req with
  | invalidJson =>
      refine ⟨by simp [webhookPOST], ?_⟩
      intro e he
      simp [webhookPOST] at he
  | json n =>
      constructor
      · constructor
        · intro h
          exfalso
          simp only [webhookPOST] at h
          repeat' split at h
          all_goals first
            | exact (webhookCredit_response_cases _ _ _ _ _ _ _ _).1 h
            | simp [webhookFailedBranch_response] at h
        · intro h
          cases h
      · intro e he
        simp only [webhookPOST] at he
        repeat' split at he
        all_goals first
          | exact (webhookCredit_response_cases _ _ _ _ _ _ _ _).2 e he
          | simp [webhookFailedBranch_response] at he

/-- Witness for the amended C9 at a parseable but unrecognizable body:
the handler acknowledges with 200, not 400. -/
theorem claim_C9_ack_except_credit_failures_witness :
    ((webhookPOST (.json none) 0 emptyDB).1 = .badRequest ↔
      (WebhookRequest.json none) = .invalidJson) ∧
    (∀ e, (webhookPOST (.json none) 0 emptyDB).1 = .error500 e →
      e = "Credit amount must be positive" ∨
      e = "Idempotency key found but transaction missing" ∨
      e = "User not found" ∨
      e = "Payment record not found") :=
  claim_C9_ack_except_credit_failures (.json none) 0 emptyDB

end SlotMachine
